import Mathlib

/-!
Shallow embedding of chemspax src/generate_tetrahedron.py.

The Python module defines a class Complex with methods distance, find_angle,
find_centroid, generate_substituent_vectors and write_xyz.  Vectors are numpy
arrays of three floats; here they become triples of real numbers.  The mutable
object state (the class mutates self.equilateral_triangle in find_centroid) is
modelled by explicit state passing: a method that mutates returns the new
Complex value alongside its result.  The fallible method
generate_substituent_vectors (raise RotationMatrixError) returns an Except.
File output in write_xyz is modelled as a function from the previous file
content (a list of characters) to the new content; the float formatting done
by pandas.to_csv is a parameter fmt.
-/

namespace Chemspax

/-- A 3-component vector (numpy array of shape (3,)). -/
@[ext]
structure Vec3 where
  x : ℝ
  y : ℝ
  z : ℝ

namespace Vec3

instance : Add Vec3 := ⟨fun a b => ⟨a.x + b.x, a.y + b.y, a.z + b.z⟩⟩

instance : Sub Vec3 := ⟨fun a b => ⟨a.x - b.x, a.y - b.y, a.z - b.z⟩⟩

instance : Neg Vec3 := ⟨fun a => ⟨-a.x, -a.y, -a.z⟩⟩

instance : SMul ℝ Vec3 := ⟨fun r a => ⟨r * a.x, r * a.y, r * a.z⟩⟩

instance : Zero Vec3 := ⟨⟨0, 0, 0⟩⟩

/-- np.dot on 3-vectors. -/
def dot (a b : Vec3) : ℝ := a.x * b.x + a.y * b.y + a.z * b.z

/-- np.cross on 3-vectors. -/
def cross (a b : Vec3) : Vec3 :=
  ⟨a.y * b.z - a.z * b.y, a.z * b.x - a.x * b.z, a.x * b.y - a.y * b.x⟩

theorem add_def (a b : Vec3) : a + b = ⟨a.x + b.x, a.y + b.y, a.z + b.z⟩ := rfl

theorem sub_def (a b : Vec3) : a - b = ⟨a.x - b.x, a.y - b.y, a.z - b.z⟩ := rfl

theorem smul_def (r : ℝ) (a : Vec3) : r • a = ⟨r * a.x, r * a.y, r * a.z⟩ := rfl

theorem zero_def : (0 : Vec3) = ⟨0, 0, 0⟩ := rfl

end Vec3

/-- np.linalg.norm of a 3-vector. -/
noncomputable def norm3 (v : Vec3) : ℝ := Real.sqrt (v.x ^ 2 + v.y ^ 2 + v.z ^ 2)

/-- A 3x3 matrix, stored as its three rows (numpy array of shape (3,3)). -/
@[ext]
structure Mat3 where
  r0 : Vec3
  r1 : Vec3
  r2 : Vec3

namespace Mat3

instance : Add Mat3 := ⟨fun m n => ⟨m.r0 + n.r0, m.r1 + n.r1, m.r2 + n.r2⟩⟩

instance : SMul ℝ Mat3 := ⟨fun r m => ⟨r • m.r0, r • m.r1, r • m.r2⟩⟩

/-- np.eye(3). -/
def eye : Mat3 := ⟨⟨1, 0, 0⟩, ⟨0, 1, 0⟩, ⟨0, 0, 1⟩⟩

/-- Matrix-vector product (np.dot of a (3,3) and a (3,) array). -/
def mulVec (m : Mat3) (v : Vec3) : Vec3 :=
  ⟨Vec3.dot m.r0 v, Vec3.dot m.r1 v, Vec3.dot m.r2 v⟩

/-- The transpose of a 3x3 matrix. -/
def transpose (m : Mat3) : Mat3 :=
  ⟨⟨m.r0.x, m.r1.x, m.r2.x⟩, ⟨m.r0.y, m.r1.y, m.r2.y⟩, ⟨m.r0.z, m.r1.z, m.r2.z⟩⟩

/-- Matrix-matrix product (np.dot of two (3,3) arrays). -/
def mul (m n : Mat3) : Mat3 :=
  ⟨⟨Vec3.dot m.r0 (transpose n).r0, Vec3.dot m.r0 (transpose n).r1, Vec3.dot m.r0 (transpose n).r2⟩,
   ⟨Vec3.dot m.r1 (transpose n).r0, Vec3.dot m.r1 (transpose n).r1, Vec3.dot m.r1 (transpose n).r2⟩,
   ⟨Vec3.dot m.r2 (transpose n).r0, Vec3.dot m.r2 (transpose n).r1, Vec3.dot m.r2 (transpose n).r2⟩⟩

/-- Determinant of a 3x3 matrix. -/
def det (m : Mat3) : ℝ :=
  m.r0.x * (m.r1.y * m.r2.z - m.r1.z * m.r2.y)
    - m.r0.y * (m.r1.x * m.r2.z - m.r1.z * m.r2.x)
    + m.r0.z * (m.r1.x * m.r2.y - m.r1.y * m.r2.x)

theorem add_rows (m n : Mat3) : m + n = ⟨m.r0 + n.r0, m.r1 + n.r1, m.r2 + n.r2⟩ := rfl

theorem smul_rows (r : ℝ) (m : Mat3) : r • m = ⟨r • m.r0, r • m.r1, r • m.r2⟩ := rfl

end Mat3

/-- The exception raised when the rotation-matrix construction is singular
(exceptions.RotationMatrixError). -/
inductive RotationMatrixError where
  | raised

/-- State of one Complex object from generate_tetrahedron.py: the fields set
by Complex.__init__ that the geometry methods read or write.  The two label
fields hold the atom column of data_matrix rows 0 and 1, used by write_xyz. -/
structure Complex where
  atom_to_be_functionalized_index : ℕ
  atom_to_be_functionalized_xyz : Vec3
  bonded_atom_index : ℕ
  bonded_atom_xyz : Vec3
  bond_length : Vec3
  bond_length_norm : Vec3
  equilateral_triangle : Mat3
  atom_to_be_functionalized_label : List Char
  bonded_atom_label : List Char

namespace Complex

/-- Complex.__init__: given the atom labels and coordinates of rows 0 and 1 of
the data matrix, build the object state.  bond_length is
atom_to_be_functionalized_xyz - bonded_atom_xyz; bond_length_norm divides it
by its norm; equilateral_triangle is the canonical unit triangle. -/
noncomputable def ofData (label0 label1 : List Char) (p0 p1 : Vec3) : Complex :=
  let bond_length := p0 - p1
  let bond_length_norm := (1 / norm3 bond_length) • bond_length
  { atom_to_be_functionalized_index := 0
    atom_to_be_functionalized_xyz := p0
    bonded_atom_index := 1
    bonded_atom_xyz := p1
    bond_length := bond_length
    bond_length_norm := bond_length_norm
    equilateral_triangle :=
      ⟨⟨0, 1 / Real.sqrt 3, 0⟩,
       ⟨-0.5, -(0.5 / Real.sqrt 3), 0⟩,
       ⟨0.5, -(0.5 / Real.sqrt 3), 0⟩⟩
    atom_to_be_functionalized_label := label0
    bonded_atom_label := label1 }

/-- Complex.distance (staticmethod). -/
noncomputable def distance (a b : Vec3) : ℝ :=
  let d := a - b
  Real.sqrt (d.x ^ 2 + d.y ^ 2 + d.z ^ 2)

/-- Complex.find_centroid.  Returns the centroid and the updated object: the
method rebinds b twice and scales self.equilateral_triangle in place. -/
noncomputable def find_centroid (self : Complex) : Vec3 × Complex :=
  let b := norm3 self.bond_length
  let b := b * (2 * Real.sqrt (2 / 3))
  let equilateral_triangle := b • self.equilateral_triangle
  let centroid := self.atom_to_be_functionalized_xyz + (b / 3) • self.bond_length_norm
  (centroid, { self with equilateral_triangle := equilateral_triangle })

/-- The rotation matrix built at lines 54-66 of generate_substituent_vectors
from the normalized bond vector: v = cross(normal, bond), v_x the
skew-symmetric matrix of v, c = dot(bond, normal),
rotation = eye(3) + v_x + v_xsq * (1/(1+c)). -/
noncomputable def rotation_matrix_of (bond_length_norm : Vec3) : Mat3 :=
  let normal_vector : Vec3 := ⟨0, 0, 1⟩
  let normal_vector := (1 / norm3 normal_vector) • normal_vector
  let v := Vec3.cross normal_vector bond_length_norm
  let v_x : Mat3 := ⟨⟨0, -v.z, v.y⟩, ⟨v.z, 0, -v.x⟩, ⟨-v.y, v.x, 0⟩⟩
  let v_xsq := v_x.mul v_x
  let c := Vec3.dot bond_length_norm normal_vector
  Mat3.eye + v_x + (1 / (1 + c)) • v_xsq

/-- Complex.generate_substituent_vectors.  Calls find_centroid (which scales
the stored triangle), builds the rotation matrix, and either raises
RotationMatrixError when c == -1 or returns the three substituent vectors
(centroid - starting_coordinate) + rotation_matrix . triangle_row, in the
fixed row order of the template, together with the updated object. -/
noncomputable def generate_substituent_vectors (self : Complex) :
    Except RotationMatrixError ((Vec3 × Vec3 × Vec3) × Complex) :=
  let cs := self.find_centroid
  let centroid := cs.1
  let self' := cs.2
  let normal_vector : Vec3 := ⟨0, 0, 1⟩
  let normal_vector := (1 / norm3 normal_vector) • normal_vector
  let starting_coordinate : Vec3 := 0
  let bond_length_norm := self.bond_length_norm
  let c := Vec3.dot bond_length_norm normal_vector
  if c = -1 then
    Except.error RotationMatrixError.raised
  else
    let rotation_matrix := rotation_matrix_of bond_length_norm
    let sub0 := (centroid - starting_coordinate) +
      rotation_matrix.mulVec self'.equilateral_triangle.r0
    let sub1 := (centroid - starting_coordinate) +
      rotation_matrix.mulVec self'.equilateral_triangle.r1
    let sub2 := (centroid - starting_coordinate) +
      rotation_matrix.mulVec self'.equilateral_triangle.r2
    Except.ok ((sub0, sub1, sub2), self')

/-- The tuple of all Complex fields except equilateral_triangle; used to
state which parts of the object state a method leaves unchanged. -/
def frame (s : Complex) :
    ℕ × Vec3 × ℕ × Vec3 × Vec3 × Vec3 × List Char × List Char :=
  (s.atom_to_be_functionalized_index, s.atom_to_be_functionalized_xyz,
   s.bonded_atom_index, s.bonded_atom_xyz, s.bond_length, s.bond_length_norm,
   s.atom_to_be_functionalized_label, s.bonded_atom_label)

end Complex

/-! File model for write_xyz.  A file is its content, a list of characters.
Python readlines splits the content into lines, each keeping its trailing
newline; write_xyz rewrites the last line with every CR and LF removed
(lines[last].replace) and writes the lines back. -/

/-- Helper for readlines: cur is the reversed current line under construction. -/
def split_lines_aux (cur : List Char) : List Char → List (List Char)
  | [] => if cur.isEmpty then [] else [cur.reverse]
  | c :: cs =>
    if c = '\n' then (c :: cur).reverse :: split_lines_aux [] cs
    else split_lines_aux (c :: cur) cs

/-- Python file.readlines(): split content into lines, each line keeping its
trailing newline; a last fragment without a newline is its own line. -/
def readlines (cs : List Char) : List (List Char) := split_lines_aux [] cs

/-- Apply f to the last element of a list (lines[len(lines)-1] = f(...)). -/
def modify_last (f : List Char → List Char) : List (List Char) → List (List Char)
  | [] => []
  | [l] => [f l]
  | l :: ls => l :: modify_last f ls

/-- Lines 106-111 of write_xyz: read all lines, remove CR and LF from the
last line, write the lines back. -/
def strip_last_line (cs : List Char) : List Char :=
  (modify_last (fun l => l.filter (fun c => !(c = '\r') && !(c = '\n'))) (readlines cs)).flatten

/-- One row written by pandas DataFrame.to_csv(sep=' ', header=False) with the
atom label as index, without the trailing newline: label, x, y, z separated by
single spaces.  fmt is the float formatting applied by to_csv. -/
def record_body (label : List Char) (fmt : ℝ → List Char) (p : Vec3) : List Char :=
  label ++ ' ' :: (fmt p.x ++ ' ' :: (fmt p.y ++ ' ' :: fmt p.z))

/-- One full row written by to_csv, with its trailing newline. -/
def record_line (label : List Char) (fmt : ℝ → List Char) (p : Vec3) : List Char :=
  record_body label fmt p ++ ['\n']

namespace Complex

/-- Complex.write_xyz, as a function from the previous content of the output
file to its new content (the file is opened in append mode).  It first calls
generate_substituent_vectors (so a RotationMatrixError propagates), appends
the two header lines (n_atoms = 5 and the bonded atom index), appends the five
records bonded atom, atom to be functionalized, substituent 1, 2, 3 via
to_csv, and finally strips CR/LF from the last line of the whole file.
Viewing (visualize_xyz_file) is an external service and is not modelled. -/
noncomputable def write_xyz (self : Complex) (prev : List Char) (fmt : ℝ → List Char)
    (substituent_1_atom substituent_2_atom substituent_3_atom : List Char) :
    Except RotationMatrixError (List Char) :=
  (self.generate_substituent_vectors).map fun p =>
    let v_1 := p.1.1
    let v_2 := p.1.2.1
    let v_3 := p.1.2.2
    let n_atoms : ℕ := 5
    let header := Nat.toDigits 10 n_atoms ++ '\n' ::
      (Nat.toDigits 10 self.bonded_atom_index ++ ['\n'])
    let rows := record_line self.bonded_atom_label fmt self.bonded_atom_xyz ++
      record_line self.atom_to_be_functionalized_label fmt self.atom_to_be_functionalized_xyz ++
      record_line substituent_1_atom fmt v_1 ++
      record_line substituent_2_atom fmt v_2 ++
      record_line substituent_3_atom fmt v_3
    strip_last_line (prev ++ header ++ rows)

end Complex

/-- Run generate_substituent_vectors twice on the same object, threading the
mutated state, and return the first substituent vector of each call. -/
noncomputable def run_twice_first (s : Complex) :
    Except RotationMatrixError (Vec3 × Vec3) :=
  s.generate_substituent_vectors.bind fun p =>
    (p.2.generate_substituent_vectors).map fun q => (p.1.1, q.1.1)

/-! Basic algebraic lemmas about the vector and matrix operations. -/

theorem Vec3.dot_self_eq (v : Vec3) : Vec3.dot v v = v.x ^ 2 + v.y ^ 2 + v.z ^ 2 := by
  simp [Vec3.dot]; ring

theorem norm3_nonneg (v : Vec3) : 0 ≤ norm3 v := Real.sqrt_nonneg _

theorem sq_norm3 (v : Vec3) : norm3 v ^ 2 = v.x ^ 2 + v.y ^ 2 + v.z ^ 2 :=
  Real.sq_sqrt (by positivity)

theorem distance_eq_norm3 (a b : Vec3) : Complex.distance a b = norm3 (a - b) := rfl

theorem norm3_pos_of_ne (a b : Vec3) (h : a ≠ b) : 0 < norm3 (a - b) := by
  apply Real.sqrt_pos.mpr
  by_contra hle
  push_neg at hle
  have hx : ((a - b).x) ^ 2 = 0 :=
    le_antisymm (by nlinarith [sq_nonneg ((a - b).y), sq_nonneg ((a - b).z)]) (sq_nonneg _)
  have hy : ((a - b).y) ^ 2 = 0 :=
    le_antisymm (by nlinarith [sq_nonneg ((a - b).x), sq_nonneg ((a - b).z)]) (sq_nonneg _)
  have hz : ((a - b).z) ^ 2 = 0 :=
    le_antisymm (by nlinarith [sq_nonneg ((a - b).x), sq_nonneg ((a - b).y)]) (sq_nonneg _)
  apply h
  have hx' := (pow_eq_zero_iff two_ne_zero).mp hx
  have hy' := (pow_eq_zero_iff two_ne_zero).mp hy
  have hz' := (pow_eq_zero_iff two_ne_zero).mp hz
  ext
  · simpa [Vec3.sub_def, sub_eq_zero] using hx'
  · simpa [Vec3.sub_def, sub_eq_zero] using hy'
  · simpa [Vec3.sub_def, sub_eq_zero] using hz'

theorem Mat3.eye_mulVec (v : Vec3) : Mat3.eye.mulVec v = v := by
  simp [Mat3.eye, Mat3.mulVec, Vec3.dot]

theorem Mat3.mul_mulVec (m n : Mat3) (v : Vec3) :
    (m.mul n).mulVec v = m.mulVec (n.mulVec v) := by
  simp [Mat3.mul, Mat3.mulVec, Mat3.transpose, Vec3.dot]
  refine ⟨by ring, by ring, by ring⟩

theorem Vec3.dot_mulVec_transpose (m : Mat3) (a b : Vec3) :
    Vec3.dot (m.mulVec a) b = Vec3.dot a (m.transpose.mulVec b) := by
  simp [Mat3.mulVec, Mat3.transpose, Vec3.dot]; ring

theorem Mat3.mulVec_sub (m : Mat3) (a b : Vec3) :
    m.mulVec (a - b) = m.mulVec a - m.mulVec b := by
  simp [Mat3.mulVec, Vec3.dot, Vec3.sub_def]
  refine ⟨by ring, by ring, by ring⟩

theorem ofData_bond_fields (l0 l1 : List Char) (p0 p1 : Vec3) :
    (Complex.ofData l0 l1 p0 p1).bond_length = p0 - p1 ∧
    (Complex.ofData l0 l1 p0 p1).bond_length_norm = (1 / norm3 (p0 - p1)) • (p0 - p1) := by
  constructor <;> rfl

/-- The normalized bond vector of a well-formed Complex is a unit vector. -/
theorem ofData_unit (l0 l1 : List Char) (p0 p1 : Vec3) (h : p0 ≠ p1) :
    Vec3.dot (Complex.ofData l0 l1 p0 p1).bond_length_norm
      (Complex.ofData l0 l1 p0 p1).bond_length_norm = 1 := by
  have hL := norm3_pos_of_ne p0 p1 h
  have hsq := sq_norm3 (p0 - p1)
  simp only [Complex.ofData, Vec3.dot, Vec3.smul_def]
  field_simp
  nlinarith [hsq]

/-! The rotation matrix in explicit form, and its algebraic properties. -/

theorem rotation_matrix_of_eq (x y z : ℝ) :
    Complex.rotation_matrix_of ⟨x, y, z⟩ =
      ⟨⟨1 - x ^ 2 / (1 + z), -(x * y / (1 + z)), x⟩,
       ⟨-(x * y / (1 + z)), 1 - y ^ 2 / (1 + z), y⟩,
       ⟨-x, -y, 1 - (x ^ 2 + y ^ 2) / (1 + z)⟩⟩ := by
  have h1 : norm3 ⟨0, 0, 1⟩ = 1 := by
    simp [norm3]
  simp only [Complex.rotation_matrix_of, h1, Vec3.cross, Vec3.dot, Vec3.smul_def,
    Mat3.mul, Mat3.transpose, Mat3.eye, Mat3.add_rows, Mat3.smul_rows, Vec3.add_def]
  ext <;> simp <;> ring

theorem rotation_RtR (u : Vec3) (hu : Vec3.dot u u = 1) (hz : u.z ≠ -1) :
    (Complex.rotation_matrix_of u).transpose.mul (Complex.rotation_matrix_of u) = Mat3.eye := by
  obtain ⟨x, y, z⟩ := u
  have h : x ^ 2 + y ^ 2 + z ^ 2 = 1 := by
    have := Vec3.dot_self_eq ⟨x, y, z⟩
    simp only [this] at hu
    exact hu
  have hw : (1 : ℝ) + z ≠ 0 := by
    intro hc
    exact hz (by simpa using (by linarith : z = -1))
  rw [rotation_matrix_of_eq]
  simp only [Mat3.mul, Mat3.transpose, Mat3.eye, Vec3.dot]
  ext <;> simp only
  · field_simp
    linear_combination (x ^ 2) * h
  · field_simp
    linear_combination (x * y * (1 + z) ^ 2) * h
  · field_simp
    try ring
  · field_simp
    linear_combination (x * y * (1 + z) ^ 2) * h
  · field_simp
    linear_combination (y ^ 2) * h
  · field_simp
    try ring
  · field_simp
    try ring
  · field_simp
    try ring
  · field_simp
    linear_combination ((x ^ 2 + y ^ 2)) * h

theorem rotation_RRt (u : Vec3) (hu : Vec3.dot u u = 1) (hz : u.z ≠ -1) :
    (Complex.rotation_matrix_of u).mul (Complex.rotation_matrix_of u).transpose = Mat3.eye := by
  obtain ⟨x, y, z⟩ := u
  have h : x ^ 2 + y ^ 2 + z ^ 2 = 1 := by
    have := Vec3.dot_self_eq ⟨x, y, z⟩
    simp only [this] at hu
    exact hu
  have hw : (1 : ℝ) + z ≠ 0 := by
    intro hc
    exact hz (by simpa using (by linarith : z = -1))
  rw [rotation_matrix_of_eq]
  simp only [Mat3.mul, Mat3.transpose, Mat3.eye, Vec3.dot]
  ext <;> simp only
  · field_simp
    linear_combination (x ^ 2) * h
  · field_simp
    linear_combination (x * y * (1 + z) ^ 2) * h
  · field_simp
    try ring
  · field_simp
    linear_combination (x * y * (1 + z) ^ 2) * h
  · field_simp
    linear_combination (y ^ 2) * h
  · field_simp
    try ring
  · field_simp
    try ring
  · field_simp
    try ring
  · field_simp
    linear_combination ((x ^ 2 + y ^ 2)) * h

theorem rotation_det (u : Vec3) (hu : Vec3.dot u u = 1) (hz : u.z ≠ -1) :
    (Complex.rotation_matrix_of u).det = 1 := by
  obtain ⟨x, y, z⟩ := u
  have h : x ^ 2 + y ^ 2 + z ^ 2 = 1 := by
    have := Vec3.dot_self_eq ⟨x, y, z⟩
    simp only [this] at hu
    exact hu
  have hw : (1 : ℝ) + z ≠ 0 := by
    intro hc
    exact hz (by simpa using (by linarith : z = -1))
  rw [rotation_matrix_of_eq]
  simp only [Mat3.det]
  field_simp
  linear_combination ((1 + z) ^ 2 - 2 * z * (1 + z) + (x ^ 2 + y ^ 2 + z ^ 2 - 1)
    + z * (x ^ 2 + y ^ 2) * (2 + z)) * h

/-- The rotation matrix maps the canonical normal (0,0,1) onto the unit bond
direction. -/
theorem rotation_maps_normal (u : Vec3) (hu : Vec3.dot u u = 1) (hz : u.z ≠ -1) :
    (Complex.rotation_matrix_of u).mulVec ⟨0, 0, 1⟩ = u := by
  obtain ⟨x, y, z⟩ := u
  have h : x ^ 2 + y ^ 2 + z ^ 2 = 1 := by
    have := Vec3.dot_self_eq ⟨x, y, z⟩
    simp only [this] at hu
    exact hu
  have hw : (1 : ℝ) + z ≠ 0 := by
    intro hc
    exact hz (by simpa using (by linarith : z = -1))
  rw [rotation_matrix_of_eq]
  simp only [Mat3.mulVec, Vec3.dot]
  ext <;> simp only
  · ring
  · ring
  · field_simp
    linear_combination (-1 : ℝ) * h

theorem norm3_normal : norm3 ⟨0, 0, 1⟩ = 1 := by
  simp [norm3]

theorem Vec3.sub_zero (a : Vec3) : a - 0 = a := by
  ext <;> simp [Vec3.sub_def, Vec3.zero_def]

/-- Unfolding of find_centroid. -/
theorem Complex.find_centroid_eq (s : Complex) :
    s.find_centroid =
      (s.atom_to_be_functionalized_xyz +
        ((norm3 s.bond_length * (2 * Real.sqrt (2 / 3))) / 3) • s.bond_length_norm,
       { s with equilateral_triangle :=
          (norm3 s.bond_length * (2 * Real.sqrt (2 / 3))) • s.equilateral_triangle }) := rfl

/-- The scalar c computed by generate_substituent_vectors is the z component
of the normalized bond vector. -/
theorem dot_normal_eq (u : Vec3) :
    Vec3.dot u ((1 / norm3 ⟨0, 0, 1⟩) • (⟨0, 0, 1⟩ : Vec3)) = u.z := by
  simp [norm3_normal, Vec3.dot, Vec3.smul_def]

/-- generate_substituent_vectors in the non-singular case. -/
theorem Complex.generate_eq_ok (s : Complex) (h : s.bond_length_norm.z ≠ -1) :
    s.generate_substituent_vectors = Except.ok
      (((s.find_centroid).1 + (Complex.rotation_matrix_of s.bond_length_norm).mulVec
          (s.find_centroid).2.equilateral_triangle.r0,
        (s.find_centroid).1 + (Complex.rotation_matrix_of s.bond_length_norm).mulVec
          (s.find_centroid).2.equilateral_triangle.r1,
        (s.find_centroid).1 + (Complex.rotation_matrix_of s.bond_length_norm).mulVec
          (s.find_centroid).2.equilateral_triangle.r2),
       (s.find_centroid).2) := by
  simp only [Complex.generate_substituent_vectors, dot_normal_eq, Vec3.sub_zero]
  rw [if_neg h]

/-- generate_substituent_vectors in the singular case. -/
theorem Complex.generate_eq_error (s : Complex) (h : s.bond_length_norm.z = -1) :
    s.generate_substituent_vectors = Except.error RotationMatrixError.raised := by
  simp only [Complex.generate_substituent_vectors, dot_normal_eq]
  rw [if_pos h]

theorem rotation_matrix_of_normal : Complex.rotation_matrix_of ⟨0, 0, 1⟩ = Mat3.eye := by
  rw [rotation_matrix_of_eq]
  ext <;> norm_num [Mat3.eye]

/-- Concrete evaluation of the bond fields of ofData on the input
p0 = (0,0,0), p1 = (0,0,-1). -/
theorem ofData_axis_bond (l0 l1 : List Char) :
    (Complex.ofData l0 l1 ⟨0, 0, 0⟩ ⟨0, 0, -1⟩).bond_length = ⟨0, 0, 1⟩ ∧
    (Complex.ofData l0 l1 ⟨0, 0, 0⟩ ⟨0, 0, -1⟩).bond_length_norm = ⟨0, 0, 1⟩ := by
  have hb : (Complex.ofData l0 l1 ⟨0, 0, 0⟩ ⟨0, 0, -1⟩).bond_length = ⟨0, 0, 1⟩ := by
    show (⟨0, 0, 0⟩ : Vec3) - ⟨0, 0, -1⟩ = ⟨0, 0, 1⟩
    ext <;> norm_num [Vec3.sub_def]
  refine ⟨hb, ?_⟩
  show (1 / norm3 ((⟨0, 0, 0⟩ : Vec3) - ⟨0, 0, -1⟩)) • ((⟨0, 0, 0⟩ : Vec3) - ⟨0, 0, -1⟩) = _
  have hb' : (⟨0, 0, 0⟩ : Vec3) - ⟨0, 0, -1⟩ = ⟨0, 0, 1⟩ := by
    ext <;> norm_num [Vec3.sub_def]
  rw [hb', norm3_normal]
  ext <;> norm_num [Vec3.smul_def]

/-- generate_substituent_vectors on any state whose bond vector is the unit
z axis: the rotation matrix is the identity and each substituent is
centralAtom + (s/3) e_z + s . triangle_row with s = 2 sqrt(2/3). -/
theorem gen_axis_eval (s : Complex) (hb : s.bond_length = ⟨0, 0, 1⟩)
    (hn : s.bond_length_norm = ⟨0, 0, 1⟩) :
    s.generate_substituent_vectors = Except.ok
      ((s.atom_to_be_functionalized_xyz + ((2 * Real.sqrt (2 / 3)) / 3) • ⟨0, 0, 1⟩ +
          (2 * Real.sqrt (2 / 3)) • s.equilateral_triangle.r0,
        s.atom_to_be_functionalized_xyz + ((2 * Real.sqrt (2 / 3)) / 3) • ⟨0, 0, 1⟩ +
          (2 * Real.sqrt (2 / 3)) • s.equilateral_triangle.r1,
        s.atom_to_be_functionalized_xyz + ((2 * Real.sqrt (2 / 3)) / 3) • ⟨0, 0, 1⟩ +
          (2 * Real.sqrt (2 / 3)) • s.equilateral_triangle.r2),
       { s with equilateral_triangle := (2 * Real.sqrt (2 / 3)) • s.equilateral_triangle }) := by
  have hz : s.bond_length_norm.z ≠ -1 := by rw [hn]; norm_num
  rw [Complex.generate_eq_ok s hz, Complex.find_centroid_eq]
  rw [hb, hn, norm3_normal, rotation_matrix_of_normal]
  simp [Mat3.eye_mulVec, Mat3.smul_rows, Vec3.add_def]

/-- Full evaluation of generate_substituent_vectors on the object built from
centralAtom (0,0,0) and bondedAtom (0,0,-1) (bond length 1, bond direction
(0,0,1), rotation matrix the identity). -/
theorem gen_ofData_axis (l0 l1 : List Char) :
    (Complex.ofData l0 l1 ⟨0, 0, 0⟩ ⟨0, 0, -1⟩).generate_substituent_vectors =
      Except.ok
        ((⟨0, 2 * Real.sqrt (2 / 3) / Real.sqrt 3, 2 * Real.sqrt (2 / 3) / 3⟩,
          ⟨-Real.sqrt (2 / 3), -(Real.sqrt (2 / 3) / Real.sqrt 3), 2 * Real.sqrt (2 / 3) / 3⟩,
          ⟨Real.sqrt (2 / 3), -(Real.sqrt (2 / 3) / Real.sqrt 3), 2 * Real.sqrt (2 / 3) / 3⟩),
         { Complex.ofData l0 l1 ⟨0, 0, 0⟩ ⟨0, 0, -1⟩ with
            equilateral_triangle := (2 * Real.sqrt (2 / 3)) •
              (Complex.ofData l0 l1 ⟨0, 0, 0⟩ ⟨0, 0, -1⟩).equilateral_triangle }) := by
  obtain ⟨hb, hn⟩ := ofData_axis_bond l0 l1
  rw [gen_axis_eval _ hb hn]
  have htri : (Complex.ofData l0 l1 ⟨0, 0, 0⟩ ⟨0, 0, -1⟩).equilateral_triangle =
      ⟨⟨0, 1 / Real.sqrt 3, 0⟩,
       ⟨-0.5, -(0.5 / Real.sqrt 3), 0⟩,
       ⟨0.5, -(0.5 / Real.sqrt 3), 0⟩⟩ := rfl
  have hxyz : (Complex.ofData l0 l1 ⟨0, 0, 0⟩ ⟨0, 0, -1⟩).atom_to_be_functionalized_xyz =
      ⟨0, 0, 0⟩ := rfl
  rw [htri, hxyz]
  refine congrArg Except.ok (congrArg (fun v => (v, _)) ?_)
  refine congrArg₂ (fun a b => (a, b)) ?_ (congrArg₂ (fun a b => (a, b)) ?_ ?_) <;>
    · ext <;> simp [Vec3.add_def, Vec3.smul_def] <;> ring

/-- Rotation preserves the dot product. -/
theorem rotation_preserves_dot (u : Vec3) (hu : Vec3.dot u u = 1) (hz : u.z ≠ -1)
    (a b : Vec3) :
    Vec3.dot ((Complex.rotation_matrix_of u).mulVec a)
      ((Complex.rotation_matrix_of u).mulVec b) = Vec3.dot a b := by
  rw [Vec3.dot_mulVec_transpose, ← Mat3.mul_mulVec, rotation_RtR u hu hz, Mat3.eye_mulVec]

/-! Bilinearity of the dot product and norm computations. -/

theorem Vec3.dot_comm (a b : Vec3) : Vec3.dot a b = Vec3.dot b a := by
  simp [Vec3.dot]; ring

theorem Vec3.dot_add_left (a b c : Vec3) :
    Vec3.dot (a + b) c = Vec3.dot a c + Vec3.dot b c := by
  simp [Vec3.dot, Vec3.add_def]; ring

theorem Vec3.dot_add_right (a b c : Vec3) :
    Vec3.dot a (b + c) = Vec3.dot a b + Vec3.dot a c := by
  simp [Vec3.dot, Vec3.add_def]; ring

theorem Vec3.dot_smul_left (r : ℝ) (a b : Vec3) :
    Vec3.dot (r • a) b = r * Vec3.dot a b := by
  simp [Vec3.dot, Vec3.smul_def]; ring

theorem Vec3.dot_smul_right (r : ℝ) (a b : Vec3) :
    Vec3.dot a (r • b) = r * Vec3.dot a b := by
  simp [Vec3.dot, Vec3.smul_def]; ring

theorem Vec3.smul_sub (r : ℝ) (a b : Vec3) : r • (a - b) = r • a - r • b := by
  ext <;> simp [Vec3.smul_def, Vec3.sub_def] <;> ring

theorem Vec3.smul_smul (r s : ℝ) (a : Vec3) : r • s • a = (r * s) • a := by
  ext <;> simp [Vec3.smul_def] <;> ring

theorem Vec3.one_smul (a : Vec3) : (1 : ℝ) • a = a := by
  ext <;> simp [Vec3.smul_def]

theorem norm3_eq_sqrt_dot (v : Vec3) : norm3 v = Real.sqrt (Vec3.dot v v) := by
  rw [norm3, Vec3.dot_self_eq]

theorem distance_comm (a b : Vec3) : Complex.distance a b = Complex.distance b a := by
  simp only [Complex.distance, Vec3.sub_def]
  congr 1
  ring

/-- Norm of a rotated, scaled unit vector. -/
theorem norm3_rot_smul (u : Vec3) (hu : Vec3.dot u u = 1) (hz : u.z ≠ -1)
    (r : ℝ) (hr : 0 ≤ r) (d : Vec3) (hd : Vec3.dot d d = 1) :
    norm3 ((Complex.rotation_matrix_of u).mulVec (r • d)) = r := by
  rw [norm3_eq_sqrt_dot, rotation_preserves_dot u hu hz,
    Vec3.dot_smul_left, Vec3.dot_smul_right, hd]
  have : r * (r * 1) = r ^ 2 := by ring
  rw [this, Real.sqrt_sq hr]

/-- The rotated image of a vector lying in the canonical plane is orthogonal
to the bond direction. -/
theorem dot_u_rot (u : Vec3) (hu : Vec3.dot u u = 1) (hz : u.z ≠ -1)
    (w : Vec3) (hw : w.z = 0) :
    Vec3.dot u ((Complex.rotation_matrix_of u).mulVec w) = 0 := by
  calc Vec3.dot u ((Complex.rotation_matrix_of u).mulVec w)
      = Vec3.dot ((Complex.rotation_matrix_of u).mulVec ⟨0, 0, 1⟩)
          ((Complex.rotation_matrix_of u).mulVec w) := by
        rw [rotation_maps_normal u hu hz]
    _ = Vec3.dot ⟨0, 0, 1⟩ w := rotation_preserves_dot u hu hz _ _
    _ = 0 := by simp [Vec3.dot, hw]

/-- Squared norm of an axial component plus a rotated in-plane component. -/
theorem dot_axis_plus_rot (u : Vec3) (hu : Vec3.dot u u = 1) (hz : u.z ≠ -1)
    (a : ℝ) (w : Vec3) (hw : w.z = 0) :
    Vec3.dot (a • u + (Complex.rotation_matrix_of u).mulVec w)
      (a • u + (Complex.rotation_matrix_of u).mulVec w) =
      a ^ 2 + Vec3.dot w w := by
  rw [Vec3.dot_add_left, Vec3.dot_add_right, Vec3.dot_add_right,
    Vec3.dot_smul_left, Vec3.dot_smul_left, Vec3.dot_smul_right, hu,
    rotation_preserves_dot u hu hz]
  have h1 : Vec3.dot u ((Complex.rotation_matrix_of u).mulVec w) = 0 :=
    dot_u_rot u hu hz w hw
  have h2 : Vec3.dot ((Complex.rotation_matrix_of u).mulVec w) u = 0 := by
    rw [Vec3.dot_comm]; exact h1
  rw [h1, Vec3.dot_smul_right, h2]
  ring

/-! Arithmetic facts about the square roots that appear in the outputs. -/

theorem sqrt23_mul_self : Real.sqrt (2 / 3) * Real.sqrt (2 / 3) = 2 / 3 :=
  Real.mul_self_sqrt (by norm_num)

theorem sqrt3_mul_self : Real.sqrt 3 * Real.sqrt 3 = 3 :=
  Real.mul_self_sqrt (by norm_num)

theorem sqrt3_pos : 0 < Real.sqrt 3 := Real.sqrt_pos.mpr (by norm_num)

theorem sqrt2_sq : Real.sqrt 2 ^ 2 = 2 := Real.sq_sqrt (by norm_num)

theorem sqrt3_sq : Real.sqrt 3 ^ 2 = 3 := Real.sq_sqrt (by norm_num)

theorem sqrt23_sq : Real.sqrt (2 / 3) ^ 2 = 2 / 3 := Real.sq_sqrt (by norm_num)

/-! Concrete dot products of the canonical triangle rows: the unit triangle
has side 1 and circumradius 1/sqrt 3. -/

theorem tri_d01 :
    Vec3.dot ((⟨0, 1 / Real.sqrt 3, 0⟩ : Vec3) - ⟨-0.5, -(0.5 / Real.sqrt 3), 0⟩)
      ((⟨0, 1 / Real.sqrt 3, 0⟩ : Vec3) - ⟨-0.5, -(0.5 / Real.sqrt 3), 0⟩) = 1 := by
  have hb0 : Real.sqrt 3 ≠ 0 := ne_of_gt sqrt3_pos
  simp only [Vec3.dot, Vec3.sub_def]
  field_simp
  try ring

theorem tri_d02 :
    Vec3.dot ((⟨0, 1 / Real.sqrt 3, 0⟩ : Vec3) - ⟨0.5, -(0.5 / Real.sqrt 3), 0⟩)
      ((⟨0, 1 / Real.sqrt 3, 0⟩ : Vec3) - ⟨0.5, -(0.5 / Real.sqrt 3), 0⟩) = 1 := by
  have hb0 : Real.sqrt 3 ≠ 0 := ne_of_gt sqrt3_pos
  simp only [Vec3.dot, Vec3.sub_def]
  field_simp
  try ring

theorem tri_d12 :
    Vec3.dot ((⟨-0.5, -(0.5 / Real.sqrt 3), 0⟩ : Vec3) - ⟨0.5, -(0.5 / Real.sqrt 3), 0⟩)
      ((⟨-0.5, -(0.5 / Real.sqrt 3), 0⟩ : Vec3) - ⟨0.5, -(0.5 / Real.sqrt 3), 0⟩) = 1 := by
  simp only [Vec3.dot, Vec3.sub_def]
  try norm_num

theorem tri_r0 :
    Vec3.dot (⟨0, 1 / Real.sqrt 3, 0⟩ : Vec3) ⟨0, 1 / Real.sqrt 3, 0⟩ = 1 / 3 := by
  have hb0 : Real.sqrt 3 ≠ 0 := ne_of_gt sqrt3_pos
  simp only [Vec3.dot]
  field_simp
  try ring

theorem tri_r1 :
    Vec3.dot (⟨-0.5, -(0.5 / Real.sqrt 3), 0⟩ : Vec3) ⟨-0.5, -(0.5 / Real.sqrt 3), 0⟩ = 1 / 3 := by
  have hb0 : Real.sqrt 3 ≠ 0 := ne_of_gt sqrt3_pos
  simp only [Vec3.dot]
  field_simp
  try ring

theorem tri_r2 :
    Vec3.dot (⟨0.5, -(0.5 / Real.sqrt 3), 0⟩ : Vec3) ⟨0.5, -(0.5 / Real.sqrt 3), 0⟩ = 1 / 3 := by
  have hb0 : Real.sqrt 3 ≠ 0 := ne_of_gt sqrt3_pos
  simp only [Vec3.dot]
  field_simp
  try ring

/-- C1: at centralAtom (0,0,0) and bondedAtom (0,0,-1) (bond length 1), the
first substituent returned by generate_substituent_vectors lies at distance
sqrt(32/27) from the central atom, which is not the bond length 1: the code
does not preserve the tetrahedral bond length, contrary to the claim. -/
theorem C1_substituent_distance_not_bond_length :
    ((Complex.ofData ['C'] ['H'] ⟨0, 0, 0⟩ ⟨0, 0, -1⟩).generate_substituent_vectors).map
        (fun p => Complex.distance ⟨0, 0, 0⟩ p.1.1) = Except.ok (Real.sqrt (32 / 27)) ∧
    Complex.distance ⟨0, 0, 0⟩ ⟨0, 0, -1⟩ = 1 ∧
    Real.sqrt (32 / 27) ≠ 1 := by
  refine ⟨?_, ?_, ?_⟩
  · rw [gen_ofData_axis]
    simp only [Except.map]
    congr 1
    simp only [Complex.distance, Vec3.sub_def]
    congr 1
    have hb0 : Real.sqrt 3 ≠ 0 := ne_of_gt sqrt3_pos
    field_simp
    linear_combination (972 + 972 * Real.sqrt 3 ^ 2) * sqrt2_sq + (-648 : ℝ) * sqrt3_sq
  · simp [Complex.distance, Vec3.sub_def]
  · intro h
    have h0 : (0 : ℝ) ≤ 32 / 27 := by norm_num
    have hsq := Real.sq_sqrt h0
    rw [h] at hsq
    norm_num at hsq

/-- C2: at centralAtom (0,0,0) and bondedAtom (0,0,-1) (bond length 1), the
distance between the first two substituents returned by
generate_substituent_vectors is sqrt(8/3), not the bond length 1: the four
points bondedAtom, substituent1..3 do not form a regular tetrahedron with
edge L. -/
theorem C2_substituent_pair_distance_not_bond_length :
    ((Complex.ofData ['C'] ['H'] ⟨0, 0, 0⟩ ⟨0, 0, -1⟩).generate_substituent_vectors).map
        (fun p => Complex.distance p.1.1 p.1.2.1) = Except.ok (Real.sqrt (8 / 3)) ∧
    Complex.distance ⟨0, 0, -1⟩ ⟨0, 0, 0⟩ = 1 ∧
    Real.sqrt (8 / 3) ≠ 1 := by
  refine ⟨?_, ?_, ?_⟩
  · rw [gen_ofData_axis]
    simp only [Except.map]
    congr 1
    simp only [Complex.distance, Vec3.sub_def]
    congr 1
    have hb0 : Real.sqrt 3 ≠ 0 := ne_of_gt sqrt3_pos
    field_simp
    linear_combination (81 : ℝ) * sqrt2_sq
  · simp [Complex.distance, Vec3.sub_def]
  · intro h
    have h0 : (0 : ℝ) ≤ 8 / 3 := by norm_num
    have hsq := Real.sq_sqrt h0
    rw [h] at hsq
    norm_num at hsq

/-- C7: running generate_substituent_vectors twice on the same object does
not return the same points: the first call scales the stored triangle in
place, so the second call's first substituent has y coordinate 8/(3 sqrt 3)
instead of 2 sqrt(2/3)/sqrt 3. -/
theorem C7_second_call_differs :
    run_twice_first (Complex.ofData ['C'] ['H'] ⟨0, 0, 0⟩ ⟨0, 0, -1⟩) =
      Except.ok
        (⟨0, 2 * Real.sqrt (2 / 3) / Real.sqrt 3, 2 * Real.sqrt (2 / 3) / 3⟩,
         ⟨0, 8 / (3 * Real.sqrt 3), 2 * Real.sqrt (2 / 3) / 3⟩) ∧
    (⟨0, 2 * Real.sqrt (2 / 3) / Real.sqrt 3, 2 * Real.sqrt (2 / 3) / 3⟩ : Vec3) ≠
      ⟨0, 8 / (3 * Real.sqrt 3), 2 * Real.sqrt (2 / 3) / 3⟩ := by
  constructor
  · simp only [run_twice_first]
    rw [gen_ofData_axis]
    have hb1 : ({ Complex.ofData ['C'] ['H'] ⟨0, 0, 0⟩ ⟨0, 0, -1⟩ with
        equilateral_triangle := (2 * Real.sqrt (2 / 3)) •
          (Complex.ofData ['C'] ['H'] ⟨0, 0, 0⟩ ⟨0, 0, -1⟩).equilateral_triangle } :
        Complex).bond_length = ⟨0, 0, 1⟩ := (ofData_axis_bond ['C'] ['H']).1
    have hn1 : ({ Complex.ofData ['C'] ['H'] ⟨0, 0, 0⟩ ⟨0, 0, -1⟩ with
        equilateral_triangle := (2 * Real.sqrt (2 / 3)) •
          (Complex.ofData ['C'] ['H'] ⟨0, 0, 0⟩ ⟨0, 0, -1⟩).equilateral_triangle } :
        Complex).bond_length_norm = ⟨0, 0, 1⟩ := (ofData_axis_bond ['C'] ['H']).2
    simp only [Except.bind]
    rw [gen_axis_eval _ hb1 hn1]
    simp only [Except.map]
    refine congrArg Except.ok (congrArg₂ (fun a b => (a, b)) rfl ?_)
    have hb0 : Real.sqrt 3 ≠ 0 := ne_of_gt sqrt3_pos
    ext
    · simp [Vec3.add_def, Vec3.smul_def, Mat3.smul_rows, Complex.ofData]
    · show (0 : ℝ) + 2 * Real.sqrt (2 / 3) / 3 * 0 +
        2 * Real.sqrt (2 / 3) * (2 * Real.sqrt (2 / 3) * (1 / Real.sqrt 3)) = 8 / (3 * Real.sqrt 3)
      field_simp
      linear_combination (12 * Real.sqrt 3) * sqrt2_sq
    · show (0 : ℝ) + 2 * Real.sqrt (2 / 3) / 3 * 1 +
        2 * Real.sqrt (2 / 3) * (2 * Real.sqrt (2 / 3) * 0) = 2 * Real.sqrt (2 / 3) / 3
      ring
  · intro h
    have hy : 2 * Real.sqrt (2 / 3) / Real.sqrt 3 = 8 / (3 * Real.sqrt 3) := congrArg Vec3.y h
    have hb0 : Real.sqrt 3 ≠ 0 := ne_of_gt sqrt3_pos
    field_simp at hy
    nlinarith [hy, sqrt2_sq, sqrt3_sq, sq_nonneg (Real.sqrt 2 * Real.sqrt 3 - 4)]

/-- C2 (amended): for every valid input, the three substituent-substituent
distances are mutually equal to 2 sqrt(2/3) times the bond length, and the
three bondedAtom-substituent distances are mutually equal to each other; the
four points form an isosceles triangular pyramid, not a regular tetrahedron
of edge L. -/
theorem C2_distances_isosceles (l0 l1 : List Char) (p0 p1 : Vec3) (hne : p0 ≠ p1)
    (hz : (Complex.ofData l0 l1 p0 p1).bond_length_norm.z ≠ -1)
    (v1 v2 v3 : Vec3) (s' : Complex)
    (hgen : (Complex.ofData l0 l1 p0 p1).generate_substituent_vectors =
      Except.ok ((v1, v2, v3), s')) :
    Complex.distance v1 v2 = 2 * Real.sqrt (2 / 3) * Complex.distance p0 p1 ∧
    Complex.distance v1 v3 = 2 * Real.sqrt (2 / 3) * Complex.distance p0 p1 ∧
    Complex.distance v2 v3 = 2 * Real.sqrt (2 / 3) * Complex.distance p0 p1 ∧
    Complex.distance p1 v1 = Complex.distance p1 v2 ∧
    Complex.distance p1 v2 = Complex.distance p1 v3 ∧
    Complex.distance p1 v1 ≠ Complex.distance v1 v2 := by
  have hu : Vec3.dot (Complex.ofData l0 l1 p0 p1).bond_length_norm
      (Complex.ofData l0 l1 p0 p1).bond_length_norm = 1 := ofData_unit l0 l1 p0 p1 hne
  have hL : 0 < norm3 (p0 - p1) := norm3_pos_of_ne p0 p1 hne
  have hLne : norm3 (p0 - p1) ≠ 0 := ne_of_gt hL
  rw [Complex.generate_eq_ok _ hz] at hgen
  simp only [Except.ok.injEq, Prod.mk.injEq] at hgen
  obtain ⟨⟨hv1, hv2, hv3⟩, hs'⟩ := hgen
  set u := (Complex.ofData l0 l1 p0 p1).bond_length_norm with hu_def
  set R := Complex.rotation_matrix_of u with hR_def
  set L := norm3 (p0 - p1) with hL_def
  set t := L * (2 * Real.sqrt (2 / 3)) with ht_def
  have htnn : 0 ≤ t := mul_nonneg hL.le (by positivity)
  have hcen : ((Complex.ofData l0 l1 p0 p1).find_centroid).1 = p0 + (t / 3) • u := rfl
  have htri : ∀ i : Fin 3,
      ((Complex.ofData l0 l1 p0 p1).find_centroid).2.equilateral_triangle =
        t • (Complex.ofData l0 l1 p0 p1).equilateral_triangle := fun _ => rfl
  have hrow0 : ((Complex.ofData l0 l1 p0 p1).find_centroid).2.equilateral_triangle.r0 =
      t • (⟨0, 1 / Real.sqrt 3, 0⟩ : Vec3) := rfl
  have hrow1 : ((Complex.ofData l0 l1 p0 p1).find_centroid).2.equilateral_triangle.r1 =
      t • (⟨-0.5, -(0.5 / Real.sqrt 3), 0⟩ : Vec3) := rfl
  have hrow2 : ((Complex.ofData l0 l1 p0 p1).find_centroid).2.equilateral_triangle.r2 =
      t • (⟨0.5, -(0.5 / Real.sqrt 3), 0⟩ : Vec3) := rfl
  have hdist : Complex.distance p0 p1 = L := rfl
  -- substituent-substituent distances
  have hsub : ∀ (a b : Vec3), Vec3.dot (a - b) (a - b) = 1 →
      Complex.distance
        (((Complex.ofData l0 l1 p0 p1).find_centroid).1 + R.mulVec (t • a))
        (((Complex.ofData l0 l1 p0 p1).find_centroid).1 + R.mulVec (t • b)) = t := by
    intro a b hab
    rw [distance_eq_norm3]
    have hdiff : (((Complex.ofData l0 l1 p0 p1).find_centroid).1 + R.mulVec (t • a)) -
        (((Complex.ofData l0 l1 p0 p1).find_centroid).1 + R.mulVec (t • b)) =
        R.mulVec (t • (a - b)) := by
      rw [Vec3.smul_sub, Mat3.mulVec_sub]
      ext <;> simp [Vec3.add_def, Vec3.sub_def]
    rw [hdiff]
    exact norm3_rot_smul u hu hz t htnn (a - b) hab
  -- bonded-atom-substituent distances
  have hb : p0 - p1 = L • u := by
    rw [hu_def]
    show p0 - p1 = L • ((1 / norm3 (p0 - p1)) • (p0 - p1))
    rw [Vec3.smul_smul, ← hL_def]
    have : L * (1 / L) = 1 := by field_simp
    rw [this, Vec3.one_smul]
  have hbond : ∀ (a : Vec3), a.z = 0 → Vec3.dot a a = 1 / 3 →
      Complex.distance p1
        (((Complex.ofData l0 l1 p0 p1).find_centroid).1 + R.mulVec (t • a)) =
        Real.sqrt ((L + t / 3) ^ 2 + t ^ 2 * (1 / 3)) := by
    intro a haz ha
    rw [distance_comm, distance_eq_norm3]
    have hXp : (((Complex.ofData l0 l1 p0 p1).find_centroid).1 + R.mulVec (t • a)) - p1 =
        (p0 - p1) + ((t / 3) • u + R.mulVec (t • a)) := by
      rw [hcen]
      ext <;> simp [Vec3.add_def, Vec3.sub_def] <;> ring
    rw [hXp, hb]
    have hsum : L • u + ((t / 3) • u + R.mulVec (t • a)) =
        (L + t / 3) • u + R.mulVec (t • a) := by
      ext <;> simp [Vec3.add_def, Vec3.smul_def] <;> ring
    rw [hsum, norm3_eq_sqrt_dot]
    have haz' : (t • a).z = 0 := by simp [Vec3.smul_def, haz]
    rw [dot_axis_plus_rot u hu hz (L + t / 3) (t • a) haz']
    congr 1
    rw [Vec3.dot_smul_left, Vec3.dot_smul_right, ha]
    ring
  refine ⟨?_, ?_, ?_, ?_, ?_, ?_⟩
  · rw [← hv1, ← hv2, hrow0, hrow1, hsub _ _ tri_d01, hdist, ht_def]
    ring
  · rw [← hv1, ← hv3, hrow0, hrow2, hsub _ _ tri_d02, hdist, ht_def]
    ring
  · rw [← hv2, ← hv3, hrow1, hrow2, hsub _ _ tri_d12, hdist, ht_def]
    ring
  · rw [← hv1, ← hv2, hrow0, hrow1, hbond _ rfl tri_r0, hbond _ rfl tri_r1]
  · rw [← hv2, ← hv3, hrow1, hrow2, hbond _ rfl tri_r1, hbond _ rfl tri_r2]
  · rw [← hv1, ← hv2, hrow0, hrow1, hbond _ rfl tri_r0, hsub _ _ tri_d01]
    have ha : (13 : ℝ) / 36 < Real.sqrt (2 / 3) := by
      nlinarith [sqrt23_mul_self, Real.sqrt_nonneg (2 / 3)]
    have hgt : t ^ 2 < (L + t / 3) ^ 2 + t ^ 2 * (1 / 3) := by
      rw [ht_def]
      nlinarith [ha, hL, sqrt23_mul_self, mul_pos hL hL]
    exact (ne_of_lt ((Real.lt_sqrt htnn).mpr hgt)).symm

/-! Lemmas about the readlines / strip-last-line file model. -/

theorem split_lines_aux_last (l : List Char) (h : '\n' ∉ l) :
    ∀ cur, split_lines_aux cur (l ++ ['\n']) = [cur.reverse ++ (l ++ ['\n'])] := by
  induction l with
  | nil =>
    intro cur
    simp [split_lines_aux]
  | cons c cs ih =>
    intro cur
    have hc : c ≠ '\n' := by
      intro hc
      exact h (by simp [hc])
    simp only [List.cons_append, split_lines_aux, if_neg hc, List.append_eq]
    rw [ih (by intro hm; exact h (List.mem_cons_of_mem _ hm)) (c :: cur)]
    simp

theorem split_lines_aux_eq_nil_iff :
    ∀ (cs : List Char) (cur : List Char),
      split_lines_aux cur cs = [] ↔ (cur = [] ∧ cs = []) := by
  intro cs
  induction cs with
  | nil =>
    intro cur
    by_cases hcur : cur = [] <;> simp [split_lines_aux, hcur]
  | cons c cs ih =>
    intro cur
    by_cases hc : c = '\n' <;> simp [split_lines_aux, hc, ih]

theorem modify_last_cons (f : List Char → List Char) (a : List Char)
    (l : List (List Char)) (h : l ≠ []) :
    modify_last f (a :: l) = a :: modify_last f l := by
  cases l with
  | nil => cases h rfl
  | cons b bs => rfl

theorem strip_core (l : List Char) (hn : '\n' ∉ l) (hr : '\r' ∉ l) :
    ∀ (s : List Char) (cur : List Char),
      (modify_last (fun a => a.filter (fun c => !(c = '\r') && !(c = '\n')))
        (split_lines_aux cur (s ++ '\n' :: (l ++ ['\n'])))).flatten =
        cur.reverse ++ s ++ '\n' :: l := by
  intro s
  induction s with
  | nil =>
    intro cur
    simp only [List.nil_append, split_lines_aux, eq_self_iff_true, if_true, List.append_eq]
    rw [split_lines_aux_last l hn []]
    rw [modify_last_cons _ _ _ (by simp)]
    simp only [modify_last]
    have hfil : (List.reverse [] ++ (l ++ ['\n'])).filter
        (fun c => !(c = '\r') && !(c = '\n')) = l := by
      simp only [List.reverse_nil, List.nil_append, List.filter_append]
      have h1 : l.filter (fun c => !(c = '\r') && !(c = '\n')) = l := by
        rw [List.filter_eq_self]
        intro a ha
        have ha1 : a ≠ '\n' := fun hx => hn (hx ▸ ha)
        have ha2 : a ≠ '\r' := fun hx => hr (hx ▸ ha)
        simp [ha1, ha2]
      have h2 : List.filter (fun c => !(c = '\r') && !(c = '\n')) ['\n'] = [] := by
        simp
      rw [h1, h2, List.append_nil]
    rw [hfil]
    simp
  | cons c cs ih =>
    intro cur
    by_cases hc : c = '\n'
    · subst hc
      simp only [List.cons_append, split_lines_aux, eq_self_iff_true, if_true, List.append_eq]
      rw [modify_last_cons _ _ _ ?_]
      · rw [List.flatten_cons, ih []]
        simp
      · intro h0
        rw [split_lines_aux_eq_nil_iff] at h0
        simp at h0
    · simp only [List.cons_append, split_lines_aux, if_neg hc, List.append_eq]
      rw [ih (c :: cur)]
      simp

/-- The end-to-end effect of the last-line stripping on a file whose final
line is l followed by a newline: only that final newline is dropped. -/
theorem strip_last_line_append (s l : List Char) (hn : '\n' ∉ l) (hr : '\r' ∉ l) :
    strip_last_line (s ++ '\n' :: (l ++ ['\n'])) = s ++ '\n' :: l := by
  have h := strip_core l hn hr s []
  simpa [strip_last_line, readlines] using h

theorem record_line_eq (label : List Char) (fmt : ℝ → List Char) (p : Vec3) :
    record_line label fmt p = record_body label fmt p ++ ['\n'] := rfl

theorem not_mem_record_body {c : Char} (label : List Char) (fmt : ℝ → List Char) (v : Vec3)
    (hc : ¬c = ' ') (hlab : c ∉ label) (hf : ∀ r, c ∉ fmt r) :
    c ∉ record_body label fmt v := by
  unfold record_body
  intro hm
  simp only [List.mem_append, List.mem_cons] at hm
  rcases hm with h | h | h | h | h | h | h
  · exact hlab h
  · exact hc h
  · exact hf v.x h
  · exact hc h
  · exact hf v.y h
  · exact hc h
  · exact hf v.z h

theorem record_body_ne_nil (label : List Char) (fmt : ℝ → List Char) (v : Vec3) :
    record_body label fmt v ≠ [] := by
  unfold record_body
  simp

theorem record_body_clean (l3 : List Char) (fmt : ℝ → List Char)
    (hfmt : ∀ r : ℝ, '\n' ∉ fmt r ∧ '\r' ∉ fmt r)
    (hl3 : '\n' ∉ l3 ∧ '\r' ∉ l3) (v : Vec3) :
    '\n' ∉ record_body l3 fmt v ∧ '\r' ∉ record_body l3 fmt v := by
  constructor
  · exact not_mem_record_body l3 fmt v (by decide) hl3.1 (fun r => (hfmt r).1)
  · exact not_mem_record_body l3 fmt v (by decide) hl3.2 (fun r => (hfmt r).2)

/-- The content written by write_xyz: previous content, the two header lines,
four full records and the last record with its trailing newline stripped. -/
theorem write_xyz_content (s : Complex) (prev : List Char) (fmt : ℝ → List Char)
    (l1 l2 l3 : List Char)
    (hfmt : ∀ r : ℝ, '\n' ∉ fmt r ∧ '\r' ∉ fmt r)
    (hl3 : '\n' ∉ l3 ∧ '\r' ∉ l3) :
    s.write_xyz prev fmt l1 l2 l3 =
      (s.generate_substituent_vectors).map (fun p =>
        prev ++ (Nat.toDigits 10 5 ++ '\n' :: (Nat.toDigits 10 s.bonded_atom_index ++ ['\n'])) ++
        record_line s.bonded_atom_label fmt s.bonded_atom_xyz ++
        record_line s.atom_to_be_functionalized_label fmt s.atom_to_be_functionalized_xyz ++
        record_line l1 fmt p.1.1 ++
        record_line l2 fmt p.1.2.1 ++
        record_body l3 fmt p.1.2.2) := by
  have hclean := record_body_clean l3 fmt hfmt hl3
  cases hgen : s.generate_substituent_vectors with
  | error e => simp [Complex.write_xyz, hgen, Except.map]
  | ok p =>
    obtain ⟨⟨v1, v2, v3⟩, s'⟩ := p
    simp only [Complex.write_xyz, hgen, Except.map]
    congr 1
    have harg : prev ++ (Nat.toDigits 10 5 ++ '\n' ::
          (Nat.toDigits 10 s.bonded_atom_index ++ ['\n'])) ++
        (record_line s.bonded_atom_label fmt s.bonded_atom_xyz ++
          record_line s.atom_to_be_functionalized_label fmt s.atom_to_be_functionalized_xyz ++
          record_line l1 fmt v1 ++ record_line l2 fmt v2 ++ record_line l3 fmt v3) =
        (prev ++ (Nat.toDigits 10 5 ++ '\n' ::
          (Nat.toDigits 10 s.bonded_atom_index ++ ['\n'])) ++
          record_line s.bonded_atom_label fmt s.bonded_atom_xyz ++
          record_line s.atom_to_be_functionalized_label fmt s.atom_to_be_functionalized_xyz ++
          record_line l1 fmt v1 ++ record_body l2 fmt v2) ++
        '\n' :: (record_body l3 fmt v3 ++ ['\n']) := by
      simp [record_line_eq, List.append_assoc]
    rw [harg, strip_last_line_append _ _ (hclean v3).1 (hclean v3).2]
    simp [record_line_eq, List.append_assoc]

/-- C9: for every successful functionalization, write_xyz appends the two
header lines followed by exactly five records, in the order bonded atom,
atom to be functionalized, substituent 1, 2, 3, each in label-x-y-z
space-separated format, and the resulting file has no trailing newline. -/
theorem C9_write_xyz_records (s : Complex) (prev : List Char) (fmt : ℝ → List Char)
    (l1 l2 l3 : List Char)
    (hfmt : ∀ r : ℝ, '\n' ∉ fmt r ∧ '\r' ∉ fmt r)
    (hl3 : '\n' ∉ l3 ∧ '\r' ∉ l3) :
    s.write_xyz prev fmt l1 l2 l3 =
      (s.generate_substituent_vectors).map (fun p =>
        prev ++ (Nat.toDigits 10 5 ++ '\n' :: (Nat.toDigits 10 s.bonded_atom_index ++ ['\n'])) ++
        record_line s.bonded_atom_label fmt s.bonded_atom_xyz ++
        record_line s.atom_to_be_functionalized_label fmt s.atom_to_be_functionalized_xyz ++
        record_line l1 fmt p.1.1 ++
        record_line l2 fmt p.1.2.1 ++
        record_body l3 fmt p.1.2.2) ∧
    (∀ cs : List Char, s.write_xyz prev fmt l1 l2 l3 = Except.ok cs →
      cs ≠ [] ∧ cs.getLast? ≠ some '\n') := by
  have hclean := record_body_clean l3 fmt hfmt hl3
  have hmain := write_xyz_content s prev fmt l1 l2 l3 hfmt hl3
  refine ⟨hmain, ?_⟩
  intro cs hcs
  rw [hmain] at hcs
  cases hgen : s.generate_substituent_vectors with
  | error e => rw [hgen] at hcs; simp [Except.map] at hcs
  | ok p =>
    rw [hgen] at hcs
    simp only [Except.map, Except.ok.injEq] at hcs
    subst hcs
    constructor
    · simp [record_body]
    · rw [List.getLast?_append_of_ne_nil _ (record_body_ne_nil l3 fmt p.1.2.2)]
      intro hlast
      have hx : '\n' ∈ (record_body l3 fmt p.1.2.2).getLast? := by
        rw [hlast]
        rfl
      have hmem : '\n' ∈ record_body l3 fmt p.1.2.2 := by
        obtain ⟨hne, heq⟩ := List.mem_getLast?_eq_getLast hx
        rw [heq]
        exact List.getLast_mem hne
      exact (hclean p.1.2.2).1 hmem

/-- C10: write_xyz opens the output file in append mode: the new content is
the pre-existing content followed by the freshly generated part, so previous
content is never truncated or overwritten. -/
theorem C10_write_xyz_appends (s : Complex) (prev : List Char) (fmt : ℝ → List Char)
    (l1 l2 l3 : List Char)
    (hfmt : ∀ r : ℝ, '\n' ∉ fmt r ∧ '\r' ∉ fmt r)
    (hl3 : '\n' ∉ l3 ∧ '\r' ∉ l3) :
    s.write_xyz prev fmt l1 l2 l3 =
      (s.write_xyz [] fmt l1 l2 l3).map (fun app => prev ++ app) := by
  have h1 := write_xyz_content s prev fmt l1 l2 l3 hfmt hl3
  have h2 := write_xyz_content s [] fmt l1 l2 l3 hfmt hl3
  rw [h1, h2]
  cases hgen : s.generate_substituent_vectors with
  | error e => simp [Except.map]
  | ok p => simp [Except.map, List.append_assoc]

/-- C3: generate_substituent_vectors raises RotationMatrixError exactly when
c = bondDirection . (0,0,1) equals -1; in particular it raises on
centralAtom (0,0,0), bondedAtom (0,0,1), whose bond direction is (0,0,-1). -/
theorem C3_singularity_iff :
    (∀ s : Complex,
      s.generate_substituent_vectors = Except.error RotationMatrixError.raised ↔
        Vec3.dot s.bond_length_norm ⟨0, 0, 1⟩ = -1) ∧
    (∀ s : Complex, Vec3.dot s.bond_length_norm ⟨0, 0, 1⟩ ≠ -1 →
      (s.generate_substituent_vectors).isOk = true) ∧
    (Complex.ofData ['C'] ['H'] ⟨0, 0, 0⟩ ⟨0, 0, 1⟩).generate_substituent_vectors =
      Except.error RotationMatrixError.raised := by
  have hdotz : ∀ u : Vec3, Vec3.dot u ⟨0, 0, 1⟩ = u.z := by
    intro u
    simp [Vec3.dot]
  refine ⟨?_, ?_, ?_⟩
  · intro s
    rw [hdotz]
    constructor
    · intro h
      by_contra hne
      rw [Complex.generate_eq_ok s hne] at h
      exact Except.noConfusion h
    · exact Complex.generate_eq_error s
  · intro s h
    rw [hdotz] at h
    rw [Complex.generate_eq_ok s h]
    rfl
  · apply Complex.generate_eq_error
    show ((1 / norm3 ((⟨0, 0, 0⟩ : Vec3) - ⟨0, 0, 1⟩)) •
      ((⟨0, 0, 0⟩ : Vec3) - ⟨0, 0, 1⟩)).z = -1
    have hb' : (⟨0, 0, 0⟩ : Vec3) - ⟨0, 0, 1⟩ = ⟨0, 0, -1⟩ := by
      ext <;> norm_num [Vec3.sub_def]
    rw [hb']
    have hn1 : norm3 ⟨0, 0, -1⟩ = 1 := by
      simp only [norm3]
      norm_num
    rw [hn1]
    norm_num [Vec3.smul_def]

/-- C4: find_centroid returns centralAtom + (s/3) u where
s = L 2 sqrt(2/3), L = distance(centralAtom, bondedAtom) and u is the unit
direction of centralAtom - bondedAtom; precondition: the two atoms differ. -/
theorem C4_find_centroid_formula (l0 l1 : List Char) (p0 p1 : Vec3) (h : p0 ≠ p1) :
    ((Complex.ofData l0 l1 p0 p1).find_centroid).1 =
      p0 + ((Complex.distance p0 p1 * (2 * Real.sqrt (2 / 3))) / 3) •
        ((1 / Complex.distance p0 p1) • (p0 - p1)) := rfl

/-- C5: for every unit bond direction with c different from -1, the rotation
matrix built inside generate_substituent_vectors is orthogonal, has
determinant 1, and maps the canonical normal (0,0,1) onto the bond
direction. -/
theorem C5_rotation_props (u : Vec3) (hu : Vec3.dot u u = 1) (hz : u.z ≠ -1) :
    (Complex.rotation_matrix_of u).mul (Complex.rotation_matrix_of u).transpose = Mat3.eye ∧
    (Complex.rotation_matrix_of u).det = 1 ∧
    (Complex.rotation_matrix_of u).mulVec ⟨0, 0, 1⟩ = u :=
  ⟨rotation_RRt u hu hz, rotation_det u hu hz, rotation_maps_normal u hu hz⟩

/-- C6: in the non-singular case, the i-th returned substituent equals
centroid + Rotation . t_i where the t_i are the rows of the scaled triangle
template, in the fixed row order 0, 1, 2. -/
theorem C6_substituents_from_template (s : Complex) (h : s.bond_length_norm.z ≠ -1) :
    s.generate_substituent_vectors = Except.ok
      (((s.find_centroid).1 + (Complex.rotation_matrix_of s.bond_length_norm).mulVec
          (s.find_centroid).2.equilateral_triangle.r0,
        (s.find_centroid).1 + (Complex.rotation_matrix_of s.bond_length_norm).mulVec
          (s.find_centroid).2.equilateral_triangle.r1,
        (s.find_centroid).1 + (Complex.rotation_matrix_of s.bond_length_norm).mulVec
          (s.find_centroid).2.equilateral_triangle.r2),
       (s.find_centroid).2) :=
  Complex.generate_eq_ok s h

/-- C7 (amended): the computation is a pure function of the geometric fields
of the context: two contexts agreeing on the central atom position, the bond
vector, its unit direction and the triangle template produce the same three
points, whatever their other fields. -/
theorem C7_no_hidden_state (s t : Complex)
    (h1 : s.atom_to_be_functionalized_xyz = t.atom_to_be_functionalized_xyz)
    (h2 : s.bond_length = t.bond_length)
    (h3 : s.bond_length_norm = t.bond_length_norm)
    (h4 : s.equilateral_triangle = t.equilateral_triangle) :
    (s.generate_substituent_vectors).map (fun p => p.1) =
      (t.generate_substituent_vectors).map (fun p => p.1) := by
  by_cases hz : s.bond_length_norm.z = -1
  · rw [Complex.generate_eq_error s hz, Complex.generate_eq_error t (h3 ▸ hz)]
  · rw [Complex.generate_eq_ok s hz, Complex.generate_eq_ok t (h3 ▸ hz)]
    simp only [Except.map, Complex.find_centroid_eq, Mat3.smul_rows, h1, h2, h3, h4]

/-- C8: find_centroid scales only the triangle-template field, by the factor
norm(bond) 2 sqrt(2/3); every other field of the object is unchanged by
find_centroid and by generate_substituent_vectors. -/
theorem C8_only_triangle_mutated (s : Complex) :
    (s.find_centroid).2.frame = s.frame ∧
    (s.find_centroid).2.equilateral_triangle =
      (norm3 s.bond_length * (2 * Real.sqrt (2 / 3))) • s.equilateral_triangle ∧
    (s.generate_substituent_vectors).map (fun p => p.2.frame) =
      (s.generate_substituent_vectors).map (fun _ => s.frame) := by
  refine ⟨rfl, rfl, ?_⟩
  by_cases h : s.bond_length_norm.z = -1
  · rw [Complex.generate_eq_error s h]
    rfl
  · rw [Complex.generate_eq_ok s h]
    rfl

/-- C3 witness: the non-singular branch evaluated at centralAtom (0,0,0),
bondedAtom (0,0,-1), where c = 1. -/
theorem C3_singularity_iff_witness :
    (Vec3.dot (Complex.ofData ['C'] ['H'] ⟨0, 0, 0⟩ ⟨0, 0, -1⟩).bond_length_norm
        ⟨0, 0, 1⟩ ≠ -1) ∧
    ((Complex.ofData ['C'] ['H'] ⟨0, 0, 0⟩ ⟨0, 0, -1⟩).generate_substituent_vectors).isOk =
      true := by
  have h : Vec3.dot (Complex.ofData ['C'] ['H'] ⟨0, 0, 0⟩ ⟨0, 0, -1⟩).bond_length_norm
      ⟨0, 0, 1⟩ ≠ -1 := by
    rw [(ofData_axis_bond ['C'] ['H']).2]
    norm_num [Vec3.dot]
  exact ⟨h, C3_singularity_iff.2.1 _ h⟩

/-- C4 witness: the formula evaluated at centralAtom (0,0,0),
bondedAtom (0,0,-1). -/
theorem C4_find_centroid_formula_witness :
    ((⟨0, 0, 0⟩ : Vec3) ≠ ⟨0, 0, -1⟩) ∧
    ((Complex.ofData ['C'] ['H'] ⟨0, 0, 0⟩ ⟨0, 0, -1⟩).find_centroid).1 =
      ⟨0, 0, 0⟩ + ((Complex.distance ⟨0, 0, 0⟩ ⟨0, 0, -1⟩ * (2 * Real.sqrt (2 / 3))) / 3) •
        ((1 / Complex.distance ⟨0, 0, 0⟩ ⟨0, 0, -1⟩) • ((⟨0, 0, 0⟩ : Vec3) - ⟨0, 0, -1⟩)) := by
  have hne : (⟨0, 0, 0⟩ : Vec3) ≠ ⟨0, 0, -1⟩ := by
    intro hq
    have hzq := congrArg Vec3.z hq
    norm_num at hzq
  exact ⟨hne, C4_find_centroid_formula ['C'] ['H'] _ _ hne⟩

/-- C5 witness: the rotation-matrix properties at the bond direction
(0,0,1), where the rotation is the identity. -/
theorem C5_rotation_props_witness :
    Vec3.dot (⟨0, 0, 1⟩ : Vec3) ⟨0, 0, 1⟩ = 1 ∧ ((⟨0, 0, 1⟩ : Vec3).z ≠ -1) ∧
    ((Complex.rotation_matrix_of ⟨0, 0, 1⟩).mul
        (Complex.rotation_matrix_of ⟨0, 0, 1⟩).transpose = Mat3.eye ∧
      (Complex.rotation_matrix_of ⟨0, 0, 1⟩).det = 1 ∧
      (Complex.rotation_matrix_of ⟨0, 0, 1⟩).mulVec ⟨0, 0, 1⟩ = ⟨0, 0, 1⟩) := by
  have hu : Vec3.dot (⟨0, 0, 1⟩ : Vec3) ⟨0, 0, 1⟩ = 1 := by
    norm_num [Vec3.dot]
  have hz : ((⟨0, 0, 1⟩ : Vec3).z ≠ -1) := by
    norm_num
  exact ⟨hu, hz, C5_rotation_props ⟨0, 0, 1⟩ hu hz⟩

/-- C6 witness: the construction evaluated on the object built from
centralAtom (0,0,0) and bondedAtom (0,0,-1). -/
theorem C6_substituents_from_template_witness :
    ((Complex.ofData ['C'] ['H'] ⟨0, 0, 0⟩ ⟨0, 0, -1⟩).bond_length_norm.z ≠ -1) ∧
    (Complex.ofData ['C'] ['H'] ⟨0, 0, 0⟩ ⟨0, 0, -1⟩).generate_substituent_vectors = Except.ok
      ((((Complex.ofData ['C'] ['H'] ⟨0, 0, 0⟩ ⟨0, 0, -1⟩).find_centroid).1 +
          (Complex.rotation_matrix_of
            (Complex.ofData ['C'] ['H'] ⟨0, 0, 0⟩ ⟨0, 0, -1⟩).bond_length_norm).mulVec
          ((Complex.ofData ['C'] ['H'] ⟨0, 0, 0⟩ ⟨0, 0, -1⟩).find_centroid).2.equilateral_triangle.r0,
        ((Complex.ofData ['C'] ['H'] ⟨0, 0, 0⟩ ⟨0, 0, -1⟩).find_centroid).1 +
          (Complex.rotation_matrix_of
            (Complex.ofData ['C'] ['H'] ⟨0, 0, 0⟩ ⟨0, 0, -1⟩).bond_length_norm).mulVec
          ((Complex.ofData ['C'] ['H'] ⟨0, 0, 0⟩ ⟨0, 0, -1⟩).find_centroid).2.equilateral_triangle.r1,
        ((Complex.ofData ['C'] ['H'] ⟨0, 0, 0⟩ ⟨0, 0, -1⟩).find_centroid).1 +
          (Complex.rotation_matrix_of
            (Complex.ofData ['C'] ['H'] ⟨0, 0, 0⟩ ⟨0, 0, -1⟩).bond_length_norm).mulVec
          ((Complex.ofData ['C'] ['H'] ⟨0, 0, 0⟩ ⟨0, 0, -1⟩).find_centroid).2.equilateral_triangle.r2),
       ((Complex.ofData ['C'] ['H'] ⟨0, 0, 0⟩ ⟨0, 0, -1⟩).find_centroid).2) := by
  have hz : ((Complex.ofData ['C'] ['H'] ⟨0, 0, 0⟩ ⟨0, 0, -1⟩).bond_length_norm.z ≠ -1) := by
    rw [(ofData_axis_bond ['C'] ['H']).2]
    norm_num
  exact ⟨hz, C6_substituents_from_template _ hz⟩

/-- C7 witness: two independently initialized contexts with the same
geometry but different labels give the same three points. -/
theorem C7_no_hidden_state_witness :
    ((Complex.ofData ['C'] ['H'] ⟨0, 0, 0⟩ ⟨0, 0, -1⟩).atom_to_be_functionalized_xyz =
      (Complex.ofData ['X'] ['Y'] ⟨0, 0, 0⟩ ⟨0, 0, -1⟩).atom_to_be_functionalized_xyz) ∧
    ((Complex.ofData ['C'] ['H'] ⟨0, 0, 0⟩ ⟨0, 0, -1⟩).bond_length =
      (Complex.ofData ['X'] ['Y'] ⟨0, 0, 0⟩ ⟨0, 0, -1⟩).bond_length) ∧
    ((Complex.ofData ['C'] ['H'] ⟨0, 0, 0⟩ ⟨0, 0, -1⟩).bond_length_norm =
      (Complex.ofData ['X'] ['Y'] ⟨0, 0, 0⟩ ⟨0, 0, -1⟩).bond_length_norm) ∧
    ((Complex.ofData ['C'] ['H'] ⟨0, 0, 0⟩ ⟨0, 0, -1⟩).equilateral_triangle =
      (Complex.ofData ['X'] ['Y'] ⟨0, 0, 0⟩ ⟨0, 0, -1⟩).equilateral_triangle) ∧
    ((Complex.ofData ['C'] ['H'] ⟨0, 0, 0⟩ ⟨0, 0, -1⟩).generate_substituent_vectors).map
        (fun p => p.1) =
      ((Complex.ofData ['X'] ['Y'] ⟨0, 0, 0⟩ ⟨0, 0, -1⟩).generate_substituent_vectors).map
        (fun p => p.1) :=
  ⟨rfl, rfl, rfl, rfl, C7_no_hidden_state _ _ rfl rfl rfl rfl⟩

/-- C2 witness: the amended distance structure evaluated at
centralAtom (0,0,0), bondedAtom (0,0,-1). -/
theorem C2_distances_isosceles_witness :
    ((⟨0, 0, 0⟩ : Vec3) ≠ ⟨0, 0, -1⟩) ∧
    ((Complex.ofData ['C'] ['H'] ⟨0, 0, 0⟩ ⟨0, 0, -1⟩).bond_length_norm.z ≠ -1) ∧
    (Complex.ofData ['C'] ['H'] ⟨0, 0, 0⟩ ⟨0, 0, -1⟩).generate_substituent_vectors =
      Except.ok
        ((⟨0, 2 * Real.sqrt (2 / 3) / Real.sqrt 3, 2 * Real.sqrt (2 / 3) / 3⟩,
          ⟨-Real.sqrt (2 / 3), -(Real.sqrt (2 / 3) / Real.sqrt 3), 2 * Real.sqrt (2 / 3) / 3⟩,
          ⟨Real.sqrt (2 / 3), -(Real.sqrt (2 / 3) / Real.sqrt 3), 2 * Real.sqrt (2 / 3) / 3⟩),
         { Complex.ofData ['C'] ['H'] ⟨0, 0, 0⟩ ⟨0, 0, -1⟩ with
            equilateral_triangle := (2 * Real.sqrt (2 / 3)) •
              (Complex.ofData ['C'] ['H'] ⟨0, 0, 0⟩ ⟨0, 0, -1⟩).equilateral_triangle }) ∧
    (Complex.distance
        ⟨0, 2 * Real.sqrt (2 / 3) / Real.sqrt 3, 2 * Real.sqrt (2 / 3) / 3⟩
        ⟨-Real.sqrt (2 / 3), -(Real.sqrt (2 / 3) / Real.sqrt 3), 2 * Real.sqrt (2 / 3) / 3⟩ =
        2 * Real.sqrt (2 / 3) * Complex.distance ⟨0, 0, 0⟩ ⟨0, 0, -1⟩ ∧
      Complex.distance
        ⟨0, 2 * Real.sqrt (2 / 3) / Real.sqrt 3, 2 * Real.sqrt (2 / 3) / 3⟩
        ⟨Real.sqrt (2 / 3), -(Real.sqrt (2 / 3) / Real.sqrt 3), 2 * Real.sqrt (2 / 3) / 3⟩ =
        2 * Real.sqrt (2 / 3) * Complex.distance ⟨0, 0, 0⟩ ⟨0, 0, -1⟩ ∧
      Complex.distance
        ⟨-Real.sqrt (2 / 3), -(Real.sqrt (2 / 3) / Real.sqrt 3), 2 * Real.sqrt (2 / 3) / 3⟩
        ⟨Real.sqrt (2 / 3), -(Real.sqrt (2 / 3) / Real.sqrt 3), 2 * Real.sqrt (2 / 3) / 3⟩ =
        2 * Real.sqrt (2 / 3) * Complex.distance ⟨0, 0, 0⟩ ⟨0, 0, -1⟩ ∧
      Complex.distance ⟨0, 0, -1⟩
        ⟨0, 2 * Real.sqrt (2 / 3) / Real.sqrt 3, 2 * Real.sqrt (2 / 3) / 3⟩ =
        Complex.distance ⟨0, 0, -1⟩
        ⟨-Real.sqrt (2 / 3), -(Real.sqrt (2 / 3) / Real.sqrt 3), 2 * Real.sqrt (2 / 3) / 3⟩ ∧
      Complex.distance ⟨0, 0, -1⟩
        ⟨-Real.sqrt (2 / 3), -(Real.sqrt (2 / 3) / Real.sqrt 3), 2 * Real.sqrt (2 / 3) / 3⟩ =
        Complex.distance ⟨0, 0, -1⟩
        ⟨Real.sqrt (2 / 3), -(Real.sqrt (2 / 3) / Real.sqrt 3), 2 * Real.sqrt (2 / 3) / 3⟩ ∧
      Complex.distance ⟨0, 0, -1⟩
        ⟨0, 2 * Real.sqrt (2 / 3) / Real.sqrt 3, 2 * Real.sqrt (2 / 3) / 3⟩ ≠
        Complex.distance
        ⟨0, 2 * Real.sqrt (2 / 3) / Real.sqrt 3, 2 * Real.sqrt (2 / 3) / 3⟩
        ⟨-Real.sqrt (2 / 3), -(Real.sqrt (2 / 3) / Real.sqrt 3), 2 * Real.sqrt (2 / 3) / 3⟩) := by
  have hne : (⟨0, 0, 0⟩ : Vec3) ≠ ⟨0, 0, -1⟩ := by
    intro hq
    have hzq := congrArg Vec3.z hq
    norm_num at hzq
  have hz : ((Complex.ofData ['C'] ['H'] ⟨0, 0, 0⟩ ⟨0, 0, -1⟩).bond_length_norm.z ≠ -1) := by
    rw [(ofData_axis_bond ['C'] ['H']).2]
    norm_num
  have hgen := gen_ofData_axis ['C'] ['H']
  exact ⟨hne, hz, hgen, C2_distances_isosceles ['C'] ['H'] _ _ hne hz _ _ _ _ hgen⟩

/-- C9 witness: the record equation at a concrete object, empty previous
content, constant float formatting and hydrogen labels. -/
theorem C9_write_xyz_records_witness :
    (Complex.ofData ['C'] ['H'] ⟨0, 0, 0⟩ ⟨0, 0, -1⟩).write_xyz []
        (fun _ : ℝ => ['0']) ['H'] ['H'] ['H'] =
      ((Complex.ofData ['C'] ['H'] ⟨0, 0, 0⟩ ⟨0, 0, -1⟩).generate_substituent_vectors).map
        (fun p =>
          [] ++ (Nat.toDigits 10 5 ++ '\n' ::
            (Nat.toDigits 10
              (Complex.ofData ['C'] ['H'] ⟨0, 0, 0⟩ ⟨0, 0, -1⟩).bonded_atom_index ++ ['\n'])) ++
          record_line (Complex.ofData ['C'] ['H'] ⟨0, 0, 0⟩ ⟨0, 0, -1⟩).bonded_atom_label
            (fun _ : ℝ => ['0'])
            (Complex.ofData ['C'] ['H'] ⟨0, 0, 0⟩ ⟨0, 0, -1⟩).bonded_atom_xyz ++
          record_line
            (Complex.ofData ['C'] ['H'] ⟨0, 0, 0⟩ ⟨0, 0, -1⟩).atom_to_be_functionalized_label
            (fun _ : ℝ => ['0'])
            (Complex.ofData ['C'] ['H'] ⟨0, 0, 0⟩ ⟨0, 0, -1⟩).atom_to_be_functionalized_xyz ++
          record_line ['H'] (fun _ : ℝ => ['0']) p.1.1 ++
          record_line ['H'] (fun _ : ℝ => ['0']) p.1.2.1 ++
          record_body ['H'] (fun _ : ℝ => ['0']) p.1.2.2) :=
  (C9_write_xyz_records (Complex.ofData ['C'] ['H'] ⟨0, 0, 0⟩ ⟨0, 0, -1⟩) []
    (fun _ : ℝ => ['0']) ['H'] ['H'] ['H']
    (fun _ => ⟨(by decide : ('\n' : Char) ∉ (['0'] : List Char)),
      (by decide : ('\r' : Char) ∉ (['0'] : List Char))⟩) ⟨by decide, by decide⟩).1

/-- C10 witness: appending behaviour at a concrete object and a nonempty
pre-existing file content. -/
theorem C10_write_xyz_appends_witness :
    (Complex.ofData ['C'] ['H'] ⟨0, 0, 0⟩ ⟨0, 0, -1⟩).write_xyz ['P', '\n']
        (fun _ : ℝ => ['0']) ['H'] ['H'] ['H'] =
      ((Complex.ofData ['C'] ['H'] ⟨0, 0, 0⟩ ⟨0, 0, -1⟩).write_xyz []
        (fun _ : ℝ => ['0']) ['H'] ['H'] ['H']).map (fun app => ['P', '\n'] ++ app) :=
  C10_write_xyz_appends (Complex.ofData ['C'] ['H'] ⟨0, 0, 0⟩ ⟨0, 0, -1⟩) ['P', '\n']
    (fun _ : ℝ => ['0']) ['H'] ['H'] ['H']
    (fun _ => ⟨(by decide : ('\n' : Char) ∉ (['0'] : List Char)),
      (by decide : ('\r' : Char) ∉ (['0'] : List Char))⟩) ⟨by decide, by decide⟩

end Chemspax
